import Mathlib

/-!
# Verification of the Brain CLI storage, git-parsing and AI-client layers

A shallow embedding of the core of the Brain CLI (a Deno/TypeScript tool):

* the data model of `src/storage/models.ts` (`GitCommit`,
  `WorkingDirectoryChanges`, `GitContext`, `RepositoryInfo`, `AIInterpretation`,
  `WorkNote`);
* the JSON-backed record store of `src/storage/database.ts` (`Storage`):
  save/fetch/delete by id, the repository-scoped recency queries and the
  migration-on-load step;
* the git output parsers of `src/git/analyzer.ts` (`GitAnalyzer`): commit-log
  parsing, porcelain-status parsing and repository-path resolution;
* the response handling of the OpenAI client (`AIClient.analyzeContext`).

Modelling conventions:

* JavaScript objects keyed by note id (`Record<string, WorkNote>`) become
  insertion-ordered lists of notes; `Object.values` enumeration order for
  non-numeric string keys is insertion order, which the list preserves.
* `new Date(s).getTime()` is abstracted as an explicit parameter
  `getTime : String → Int`; the sorts compare those integers exactly as the
  JavaScript comparators compare millisecond epochs.
* `Array.prototype.sort` is stable (ECMAScript 2019); it is modelled by a
  stable insertion sort ordering strictly-greater keys first.
* JavaScript truthiness of strings (`""` is falsy) and of possibly-missing
  fields (`undefined` is falsy) is modelled explicitly on `String` and
  `Option`.
* Subprocess execution (`runCommand`) is an oracle `List String → CommandResult`;
  functions that shell out additionally return the list of argument vectors
  they issued, so "performs no subprocess call" is expressible.
-/

namespace Brain

/-- Commit record (`GitCommit` in `src/storage/models.ts`). -/
structure GitCommit where
  hash : String
  message : String
  timestamp : String
  author : String
  filesChanged : List String
deriving DecidableEq, Repr

/-- Working-tree snapshot (`WorkingDirectoryChanges` in `src/storage/models.ts`). -/
structure WorkingDirectoryChanges where
  staged : List String
  unstaged : List String
  untracked : List String
deriving DecidableEq, Repr

/-- Git snapshot (`GitContext` in `src/storage/models.ts`).  `repositoryPath`
is `Option String` because the raw stored JSON of legacy notes may omit it;
the migration step reads it through optional chaining. -/
structure GitContext where
  currentBranch : String
  recentCommits : List GitCommit
  workingDirectoryChanges : WorkingDirectoryChanges
  repositoryPath : Option String
deriving DecidableEq, Repr

/-- Repository descriptor (`RepositoryInfo` in `src/storage/models.ts`). -/
structure RepositoryInfo where
  path : String
  identifier : String
deriving DecidableEq, Repr

/-- AI interpretation as persisted on a note (`AIInterpretation` in
`src/storage/models.ts`).  The confidence score (a JavaScript number) is
modelled as a rational. -/
structure AIInterpretation where
  summary : String
  technicalContext : String
  suggestedNextSteps : List String
  relatedFiles : List String
  confidenceScore : ℚ
deriving DecidableEq, Repr

/-- Work note (`WorkNote` in `src/storage/models.ts`).  `repositoryInfo` is
`Option RepositoryInfo`: stored legacy notes may lack the descriptor (that is
what the migration step repairs), and every scoped query reads it through
optional chaining. -/
structure WorkNote where
  id : String
  message : String
  timestamp : String
  gitContext : GitContext
  repositoryInfo : Option RepositoryInfo
  aiInterpretation : Option AIInterpretation
deriving DecidableEq, Repr

/-- JavaScript truthiness of a string: the empty string is falsy. -/
def strTruthy (s : String) : Bool := s ≠ ""

/-- The whitespace characters relevant to `String.prototype.trim` in the
outputs handled here (space, tab, line feed, carriage return). -/
def isJsWs (c : Char) : Bool :=
  c == ' ' || c == '\t' || c == '\n' || c == '\r'

/-- `String.prototype.trim` on a character list: drop whitespace from both
ends. -/
def trimChars (l : List Char) : List Char :=
  ((l.dropWhile isJsWs).reverse.dropWhile isJsWs).reverse

/-- `String.prototype.trim`. -/
def jsTrim (s : String) : String :=
  String.mk (trimChars s.toList)

/-- Whether `sep` is a prefix of `l` (character-wise). -/
def isPrefixList : List Char → List Char → Bool
  | [], _ => true
  | _ :: _, [] => false
  | a :: as, b :: bs => a == b && isPrefixList as bs

/-- `String.prototype.split` on a non-empty separator, on character lists,
with explicit fuel (any fuel of at least the input length gives the JavaScript
behaviour: scan left to right, cut at each separator match and jump past it). -/
def splitSeqFuel (sep : List Char) : Nat → List Char → List (List Char)
  | _, [] => [[]]
  | 0, l => [l]
  | Nat.succ fuel, x :: xs =>
      if isPrefixList sep (x :: xs) then
        [] :: splitSeqFuel sep fuel ((x :: xs).drop sep.length)
      else
        match splitSeqFuel sep fuel xs with
        | ys :: rest => (x :: ys) :: rest
        | [] => [[x]]

/-- `String.prototype.split` on a non-empty separator. -/
def jsSplit (s sep : String) : List String :=
  (splitSeqFuel sep.toList s.toList.length s.toList).map String.mk

/-- `String.prototype.endsWith`. -/
def jsEndsWith (s suf : String) : Bool :=
  isPrefixList suf.toList.reverse s.toList.reverse

/-- `String.prototype.slice(0, -n)`: drop the last `n` characters. -/
def jsDropRight (s : String) (n : Nat) : String :=
  String.mk (s.toList.take (s.toList.length - n))

/-- Stable descending insertion: `a` is placed before the first element whose
key is not greater than `key a`.  Later-inserted elements with equal keys stay
after earlier ones, matching the stability of `Array.prototype.sort` with the
comparator `(x, y) => key y - key x`. -/
def insertDesc {α : Type} (key : α → Int) (a : α) : List α → List α
  | [] => [a]
  | b :: l => if key b ≤ key a then a :: b :: l else b :: insertDesc key a l

/-- Stable sort placing larger keys first; models the in-place
`workNotes.sort((a, b) => timeOf b - timeOf a)` calls in
`src/storage/database.ts`. -/
def sortByKeyDesc {α : Type} (key : α → Int) (l : List α) : List α :=
  l.foldr (insertDesc key) []

/-- `Storage.saveWorkNote`: `this.data.workNotes[workNote.id] = { ...workNote }`.
On an object this overwrites an existing key in place (keeping its enumeration
position) or appends a fresh key. -/
def saveWorkNote (store : List WorkNote) (n : WorkNote) : List WorkNote :=
  if store.any (fun m => m.id == n.id) then
    store.map (fun m => if m.id == n.id then n else m)
  else
    store ++ [n]

/-- `Storage.getWorkNote`: fetch by id, `null` when the key is absent. -/
def getWorkNote (store : List WorkNote) (id : String) : Option WorkNote :=
  store.find? (fun m => m.id == id)

/-- `Storage.getLatestWorkNote`: sort all notes by timestamp descending and
return the first (or `null` when empty).  It takes no repository argument. -/
def getLatestWorkNote (getTime : String → Int) (store : List WorkNote) :
    Option WorkNote :=
  (sortByKeyDesc (fun n => getTime n.timestamp) store).head?

/-- The repository filter predicate used by the scoped queries:
`note.repositoryInfo?.identifier === repositoryId`.  A note without a
descriptor never matches (optional chaining yields `undefined`). -/
def repoIdMatches (n : WorkNote) (r : String) : Bool :=
  match n.repositoryInfo with
  | some ri => ri.identifier == r
  | none => false

/-- The `if (repositoryId) { workNotes = workNotes.filter(...) }` guard shared
by `getLastWorkNote` and `getRecentWorkNotes`: filtering happens only when the
argument is present AND truthy — `undefined` and `""` both skip the filter. -/
def scopeFilter (store : List WorkNote) (repositoryId : Option String) :
    List WorkNote :=
  match repositoryId with
  | some r => if strTruthy r then store.filter (fun n => repoIdMatches n r) else store
  | none => store

/-- `Storage.getLastWorkNote(repositoryId?)`: optionally filter by descriptor
identifier, sort by timestamp descending, return the first (or `null`). -/
def getLastWorkNote (getTime : String → Int) (store : List WorkNote)
    (repositoryId : Option String) : Option WorkNote :=
  (sortByKeyDesc (fun n => getTime n.timestamp) (scopeFilter store repositoryId)).head?

/-- `Storage.getRecentWorkNotes(limit, repositoryId?)`: optionally filter,
sort by timestamp descending, take the first `limit`.  (The JavaScript default
`limit = 5` and `slice(0, limit)` for non-negative limits are `List.take`.) -/
def getRecentWorkNotes (getTime : String → Int) (store : List WorkNote)
    (limit : Nat) (repositoryId : Option String) : List WorkNote :=
  let ns := scopeFilter store repositoryId
  if ns.isEmpty then []
  else (sortByKeyDesc (fun n => getTime n.timestamp) ns).take limit

/-- Result of `Storage.deleteWorkNote`: the note collection afterwards, whether
`saveData` (the synchronous persistence write) ran, and the returned boolean. -/
structure DeleteResult where
  store : List WorkNote
  persisted : Bool
  returned : Bool
deriving DecidableEq, Repr

/-- `Storage.deleteWorkNote(id)`: when the key exists, delete it, persist and
return `true`; otherwise return `false` without touching storage. -/
def deleteWorkNote (store : List WorkNote) (id : String) : DeleteResult :=
  if store.any (fun m => m.id == id) then
    { store := store.filter (fun m => m.id != id), persisted := true, returned := true }
  else
    { store := store, persisted := false, returned := false }

/-- The per-note body of `Storage.performMigration`: a note that already has a
descriptor is skipped; otherwise one is synthesised from the embedded
snapshot's `repositoryPath` read through optional chaining and a truthiness
test, falling back to the sentinel `"unknown"`.  The boolean reports whether
the note was counted as migrated. -/
def migrateNote (n : WorkNote) : WorkNote × Bool :=
  match n.repositoryInfo with
  | some _ => (n, false)
  | none =>
      let p := match n.gitContext.repositoryPath with
        | some q => if strTruthy q then q else "unknown"
        | none => "unknown"
      ({ n with repositoryInfo := some { path := p, identifier := p } }, true)

/-- `Storage.performMigration`: migrate every note in place and count how many
records were migrated (the count is what the routine reports). -/
def performMigration (store : List WorkNote) : List WorkNote × Nat :=
  (store.map (fun n => (migrateNote n).1), store.countP (fun n => (migrateNote n).2))

/-- `Storage.checkMigrationNeeded`: some note lacks `repositoryInfo`. -/
def checkMigrationNeeded (store : List WorkNote) : Bool :=
  store.any (fun n => n.repositoryInfo.isNone)

/-- Result of one `git` subprocess invocation (`CommandResult` in
`src/git/analyzer.ts`). -/
structure CommandResult where
  stdout : String
  stderr : String
  success : Bool
deriving DecidableEq, Repr

/-- Whether `pat` occurs in `l` (character-wise scan from the left). -/
def containsSeq (pat : List Char) : List Char → Bool
  | [] => isPrefixList pat []
  | x :: xs => isPrefixList pat (x :: xs) || containsSeq pat xs

/-- JavaScript `s.includes(pat)`. -/
def containsSubstring (s pat : String) : Bool :=
  containsSeq pat.toList s.toList

/-- The argument vector issued by `GitAnalyzer.getRecentCommits`. -/
def gitLogCmd (maxCommits : Int) : List String :=
  ["log", "--max-count=" ++ toString maxCommits,
   "--pretty=format:%H§%s§%ai§%an§", "--name-only"]

/-- One line of the degenerate single-line log format: a line without the `§`
delimiter, or with fewer than four fields, is skipped; the optional fifth
field holds comma-joined file names (`undefined` and `""` are both falsy, so
either yields an empty file list). -/
def parseLogLineCommit (line : String) : Option GitCommit :=
  if containsSubstring line "§" = false then none
  else
    let parts := jsSplit line "§"
    if parts.length ≥ 4 then
      let files := parts.getD 4 ""
      some { hash := jsTrim (parts.getD 0 "")
             message := jsTrim (parts.getD 1 "")
             timestamp := jsTrim (parts.getD 2 "")
             author := jsTrim (parts.getD 3 "")
             filesChanged := if strTruthy files then (jsSplit files ",").map jsTrim else [] }
    else none

/-- One blank-line-separated block of the real log format: the first line
carries the `§`-delimited fields, the remaining non-empty `§`-free lines are
the changed files.  (When the first line carries fewer than four fields the
JavaScript destructuring leaves fields `undefined` and the subsequent `.trim()`
throws; that crash path is modelled with empty strings and is not exercised by
any claim.) -/
def parseLogBlock (block : String) : Option GitCommit :=
  let lines := jsSplit block "\n"
  let commitInfo := lines.getD 0 ""
  if containsSubstring commitInfo "§" = false then none
  else
    let parts := jsSplit commitInfo "§"
    let filesChanged := (lines.drop 1).filter
      (fun l => jsTrim l ≠ "" ∧ containsSubstring l "§" = false)
    some { hash := jsTrim (parts.getD 0 "")
           message := jsTrim (parts.getD 1 "")
           timestamp := jsTrim (parts.getD 2 "")
           author := jsTrim (parts.getD 3 "")
           filesChanged := filesChanged.map jsTrim }

/-- `GitAnalyzer.parseGitLogOutput`: the single-line test format is used when
the output contains `§` but no blank line; otherwise blocks are separated by
blank lines. -/
def parseGitLogOutput (output : String) : List GitCommit :=
  if containsSubstring output "§" ∧ containsSubstring output "\n\n" = false then
    ((jsSplit output "\n").filter (fun l => jsTrim l ≠ "")).filterMap parseLogLineCommit
  else
    ((jsSplit output "\n\n").filter (fun b => jsTrim b ≠ "")).filterMap parseLogBlock

/-- `GitAnalyzer.getRecentCommits(maxCommits)`: validation happens before any
subprocess runs; the second component lists the argument vectors issued. -/
def getRecentCommits (env : List String → CommandResult) (maxCommits : Int) :
    Except String (List GitCommit) × List (List String) :=
  if maxCommits ≤ 0 then (Except.error "maxCommits must be positive", [])
  else
    let cmd := gitLogCmd maxCommits
    let result := env cmd
    if result.success = false then
      (Except.error ("Git log command failed: " ++ result.stderr), [cmd])
    else if jsTrim result.stdout = "" then (Except.ok [], [cmd])
    else (Except.ok (parseGitLogOutput result.stdout), [cmd])

/-- The per-line step of `GitAnalyzer.getWorkingDirectoryChanges`: lines
shorter than three characters are skipped; the first character is the index
status, the second the work-tree status, and the file name is everything from
index 3 on.  A non-space, non-`?` index status stages the path; a non-space
work-tree status classifies it as untracked when it is `?` and unstaged
otherwise. -/
def statusLineStep (acc : WorkingDirectoryChanges) (line : String) :
    WorkingDirectoryChanges :=
  match line.toList with
  | c0 :: c1 :: _ :: rest =>
      let filename := String.mk rest
      let acc1 :=
        if c0 ≠ ' ' ∧ c0 ≠ '?' then { acc with staged := acc.staged ++ [filename] }
        else acc
      if c1 ≠ ' ' then
        if c1 = '?' then { acc1 with untracked := acc1.untracked ++ [filename] }
        else { acc1 with unstaged := acc1.unstaged ++ [filename] }
      else acc1
  | _ => acc

/-- `GitAnalyzer.getWorkingDirectoryChanges` applied to the porcelain status
output: split into lines, keep the non-blank ones, and classify each. -/
def getWorkingDirectoryChanges (stdout : String) : WorkingDirectoryChanges :=
  ((jsSplit stdout "\n").filter (fun l => jsTrim l ≠ "")).foldl statusLineStep
    { staged := [], unstaged := [], untracked := [] }

/-- `GitAnalyzer.getRepositoryPath` as it stands in `src/git/analyzer.ts`:
run `git rev-parse --git-dir`, trim the output; `.git` means the current
working directory is the root, an absolute path ending in `.git` has its last
five characters (`/.git`) removed, and anything else is returned as is.  The
second component lists the argument vectors issued. -/
def getRepositoryPath (env : List String → CommandResult) (cwd : String) :
    Except String String × List (List String) :=
  let cmd := ["rev-parse", "--git-dir"]
  let result := env cmd
  if result.success = false then
    (Except.error ("Not a git repository: " ++ result.stderr), [cmd])
  else
    let gitDir := jsTrim result.stdout
    if gitDir = ".git" then (Except.ok cwd, [cmd])
    else if jsEndsWith gitDir ".git" then (Except.ok (jsDropRight gitDir 5), [cmd])
    else (Except.ok gitDir, [cmd])

/-- A JSON value, as needed to model what `JSON.parse` hands to the field
validation of `AIClient.analyzeContext`. -/
inductive JVal where
  | jnull : JVal
  | jbool (b : Bool) : JVal
  | jnum (q : ℚ) : JVal
  | jstr (s : String) : JVal
  | jarr (elems : List JVal) : JVal

/-- JavaScript truthiness of a JSON value (`NaN`, absent from the rational
model, is the one falsy number not covered). -/
def JVal.truthy : JVal → Bool
  | .jnull => false
  | .jbool b => b
  | .jnum q => q ≠ 0
  | .jstr s => s ≠ ""
  | .jarr _ => true

/-- The JSON document parsed from `choices[0].message.content`, with each of
the five expected fields possibly absent. -/
structure ParsedContent where
  summary : Option JVal
  technicalContext : Option JVal
  suggestedNextSteps : Option JVal
  relatedFiles : Option JVal
  confidenceScore : Option JVal

/-- Truthiness of a possibly-absent field (`undefined` is falsy). -/
def fieldTruthy : Option JVal → Bool
  | none => false
  | some v => v.truthy

/-- `typeof field === 'number'`. -/
def isNumberField : Option JVal → Bool
  | some (JVal.jnum _) => true
  | _ => false

/-- `Array.isArray(field)`. -/
def isArrayField : Option JVal → Bool
  | some (JVal.jarr _) => true
  | _ => false

/-- The missing-required-field message of `AIClient.analyzeContext`. -/
def missingFieldsMsg : String := "Invalid AI response format: missing required fields"

/-- The non-array-list-fields message of `AIClient.analyzeContext`. -/
def arraysMsg : String :=
  "Invalid AI response format: suggestedNextSteps and relatedFiles must be arrays"

/-- The field validation and confidence clamp of `AIClient.analyzeContext`:
all five fields must be truthy (the score must be a number), the two list
fields must be arrays, and an out-of-range score is clamped into `[0, 1]` via
`Math.max(0, Math.min(1, score))`. -/
def validateParsed (parsed : ParsedContent) : Except String ParsedContent :=
  if fieldTruthy parsed.summary = false ∨ fieldTruthy parsed.technicalContext = false ∨
      fieldTruthy parsed.suggestedNextSteps = false ∨
      fieldTruthy parsed.relatedFiles = false ∨
      isNumberField parsed.confidenceScore = false then
    Except.error missingFieldsMsg
  else if isArrayField parsed.suggestedNextSteps = false ∨
      isArrayField parsed.relatedFiles = false then
    Except.error arraysMsg
  else
    match parsed.confidenceScore with
    | some (JVal.jnum q) =>
        if q < 0 ∨ 1 < q then
          Except.ok { parsed with confidenceScore := some (JVal.jnum (max 0 (min 1 q))) }
        else Except.ok parsed
    | _ => Except.ok parsed

/-- What the `fetch` of `AIClient.analyzeContext` produced: a thrown network
error, or an HTTP response carrying its `ok` flag, status code, upstream error
message and the parse result of each choice's content (`none` models content
on which `JSON.parse` throws). -/
inductive FetchOutcome where
  | networkFailure (message : String) : FetchOutcome
  | httpResponse (ok : Bool) (status : Nat) (errorMessage : Option String)
      (choices : List (Option ParsedContent)) : FetchOutcome

/-- The body of the `try` block of `AIClient.analyzeContext`: non-ok responses
raise the rate-limit message for status 429 and the upstream-error message
otherwise; an empty choice list raises the no-response message; unparseable
content raises the malformed-JSON message; otherwise the document is
validated. -/
def tryBody : FetchOutcome → Except String ParsedContent
  | .networkFailure msg => Except.error msg
  | .httpResponse ok status errorMessage choices =>
      if ok = false then
        if status = 429 then
          Except.error "OpenAI API rate limit exceeded. Please try again later."
        else
          Except.error ("OpenAI API error (" ++ toString status ++ "): " ++
            errorMessage.getD "Unknown error")
      else
        match choices with
        | [] => Except.error "No response from AI"
        | content :: _ =>
            match content with
            | none => Except.error "Failed to parse AI response: invalid JSON format"
            | some parsed => validateParsed parsed

/-- The re-throw test of the outer `catch` of `AIClient.analyzeContext`: only
messages containing one of these three markers pass through unwrapped. -/
def isCustomError (msg : String) : Bool :=
  containsSubstring msg "OpenAI API" || containsSubstring msg "No response" ||
    containsSubstring msg "Failed to parse"

/-- The outer `catch` of `AIClient.analyzeContext`: an error carrying a
recognised marker is re-thrown as is, anything else is wrapped as a
connection failure. -/
def wrapCaught (msg : String) : String :=
  if isCustomError msg then msg else "Failed to connect to OpenAI API: " ++ msg

/-- `AIClient.analyzeContext`: a blank API key fails before the request (the
check precedes the `try` block); every error thrown inside the `try` block
goes through the outer catch (`wrapCaught`). -/
def analyzeContext (apiKey : String) (outcome : FetchOutcome) :
    Except String ParsedContent :=
  if apiKey = "" ∨ jsTrim apiKey = "" then Except.error "OpenAI API key is required"
  else
    match tryBody outcome with
    | Except.ok parsed => Except.ok parsed
    | Except.error msg => Except.error (wrapCaught msg)

/-- The data retrieval performed by `BrainCLI.resumeCommand`
(`src/cli/commands.ts` line 165): it calls `Storage.getLatestWorkNote()` and
has no repository-scope parameter at all. -/
def resumeRetrieval (getTime : String → Int) (store : List WorkNote) :
    Option WorkNote :=
  getLatestWorkNote getTime store


/-! ## Concrete fixtures used by witnesses and counterexamples -/

/-- A timestamp interpretation making `"t2"` strictly newer than every other
timestamp string. -/
def exTime : String → Int := fun s => if s == "t2" then 2 else 1

/-- A minimal git snapshot with the given repository path. -/
def exCtx (p : Option String) : GitContext :=
  { currentBranch := "main", recentCommits := [],
    workingDirectoryChanges := { staged := [], unstaged := [], untracked := [] },
    repositoryPath := p }

/-- A note with message `"m1"` saved in repository `"/a"` at time `"t1"`. -/
def exNoteA : WorkNote :=
  { id := "n1", message := "m1", timestamp := "t1", gitContext := exCtx (some "/a"),
    repositoryInfo := some { path := "/a", identifier := "/a" }, aiInterpretation := none }

/-- A note with message `"m2"` saved in repository `"/b"` at time `"t2"`. -/
def exNoteB : WorkNote :=
  { id := "n2", message := "m2", timestamp := "t2", gitContext := exCtx (some "/b"),
    repositoryInfo := some { path := "/b", identifier := "/b" }, aiInterpretation := none }

/-- A note whose repository descriptor identifier is the empty string. -/
def emptyIdNote : WorkNote :=
  { id := "e1", message := "me", timestamp := "t1", gitContext := exCtx (some ""),
    repositoryInfo := some { path := "", identifier := "" }, aiInterpretation := none }

/-- A legacy note without a descriptor whose embedded snapshot carries the
empty string as its repository path. -/
def legacyEmptyPathNote : WorkNote :=
  { id := "L0", message := "old", timestamp := "t0", gitContext := exCtx (some ""),
    repositoryInfo := none, aiInterpretation := none }

/-- A legacy note without a descriptor whose embedded snapshot carries the
repository path `"/la"`. -/
def legacyANote : WorkNote :=
  { id := "L1", message := "older", timestamp := "t0", gitContext := exCtx (some "/la"),
    repositoryInfo := none, aiInterpretation := none }

/-- A subprocess oracle answering every invocation with empty, successful
output. -/
def env0 : List String → CommandResult := fun _ => { stdout := "", stderr := "", success := true }

/-- A subprocess oracle whose single line of output names a directory with a
trailing path separator. -/
def envTrailingSlash : List String → CommandResult :=
  fun _ => { stdout := "/x/\n", stderr := "", success := true }

/-- A subprocess oracle whose single line of output names the same directory
without the trailing separator. -/
def envNoTrailingSlash : List String → CommandResult :=
  fun _ => { stdout := "/x\n", stderr := "", success := true }

/-- A parsed response document whose five fields are present and well-typed:
two strings, two arrays and a numeric confidence score. -/
def mkParsed (s t : String) (xs ys : List JVal) (q : ℚ) : ParsedContent :=
  { summary := some (JVal.jstr s), technicalContext := some (JVal.jstr t),
    suggestedNextSteps := some (JVal.jarr xs), relatedFiles := some (JVal.jarr ys),
    confidenceScore := some (JVal.jnum q) }

/-! ## Helper lemmas -/

theorem mem_insertDesc {α : Type} (key : α → Int) (a x : α) :
    ∀ l : List α, x ∈ insertDesc key a l ↔ x = a ∨ x ∈ l := by
  intro l
  induction l with
  | nil => simp [insertDesc]
  | cons b l ih =>
      by_cases h : key b ≤ key a
      · simp [insertDesc, h]
      · simp only [insertDesc, if_neg h, List.mem_cons, ih]
        tauto

theorem mem_sortByKeyDesc {α : Type} (key : α → Int) (x : α) :
    ∀ l : List α, x ∈ sortByKeyDesc key l ↔ x ∈ l := by
  intro l
  induction l with
  | nil => simp [sortByKeyDesc]
  | cons b l ih =>
      simp only [sortByKeyDesc, List.foldr_cons, List.mem_cons]
      rw [mem_insertDesc]
      simp only [sortByKeyDesc] at ih
      rw [ih]

theorem head?_mem {α : Type} {l : List α} {a : α} (h : l.head? = some a) : a ∈ l := by
  cases l with
  | nil => cases h
  | cons b t =>
      simp only [List.head?, Option.some.injEq] at h
      subst h
      exact List.mem_cons_self b t

theorem find?_map_overwrite (n : WorkNote) :
    ∀ store : List WorkNote, store.any (fun m => m.id == n.id) = true →
      (store.map (fun m => if m.id == n.id then n else m)).find?
        (fun m => m.id == n.id) = some n := by
  intro store
  induction store with
  | nil => intro h; cases h
  | cons m l ih =>
      intro h
      by_cases hm : (m.id == n.id) = true
      · have hn : (n.id == n.id) = true := by simp
        simp only [List.map_cons, if_pos hm, List.find?_cons, hn]
      · have hm' : (m.id == n.id) = false := by simpa using hm
        rw [List.map_cons, if_neg hm, List.find?_cons, hm']
        exact ih (by simpa [List.any_cons, hm'] using h)

theorem find?_append_self (n : WorkNote) :
    ∀ store : List WorkNote, store.any (fun m => m.id == n.id) = false →
      (store ++ [n]).find? (fun m => m.id == n.id) = some n := by
  intro store
  induction store with
  | nil =>
      intro _
      simp only [List.nil_append, List.find?_cons, beq_self_eq_true]
  | cons m l ih =>
      intro h
      simp only [List.any_cons, Bool.or_eq_false_iff] at h
      simp only [List.cons_append, List.find?_cons, h.1]
      exact ih h.2

theorem repoIdMatches_identifier {n : WorkNote} {A : String}
    (h : repoIdMatches n A = true) :
    n.repositoryInfo.map RepositoryInfo.identifier = some A := by
  unfold repoIdMatches at h
  cases hri : n.repositoryInfo with
  | none => rw [hri] at h; cases h
  | some ri =>
      rw [hri] at h
      simp only [beq_iff_eq] at h
      simp [hri, h]

theorem mem_scopeFilter_matches {store : List WorkNote} {A : String} (hA : A ≠ "")
    {n : WorkNote} (h : n ∈ scopeFilter store (some A)) : repoIdMatches n A = true := by
  simp only [scopeFilter] at h
  rw [if_pos (show strTruthy A = true by simp [strTruthy, hA])] at h
  exact (List.mem_filter.mp h).2

theorem migrateNote_fst_isSome (n : WorkNote) :
    ((migrateNote n).1).repositoryInfo.isSome = true := by
  unfold migrateNote
  cases h : n.repositoryInfo with
  | none => simp
  | some ri => simp [h]

theorem migrateNote_of_isSome {m : WorkNote} (h : m.repositoryInfo.isSome = true) :
    migrateNote m = (m, false) := by
  unfold migrateNote
  cases hri : m.repositoryInfo with
  | none => rw [hri] at h; cases h
  | some ri => rfl

theorem migrateNote_idem (n : WorkNote) :
    migrateNote (migrateNote n).1 = ((migrateNote n).1, false) :=
  migrateNote_of_isSome (migrateNote_fst_isSome n)

theorem migrate_list_fixed :
    ∀ l : List WorkNote, (∀ m ∈ l, migrateNote m = (m, false)) →
      l.map (fun n => (migrateNote n).1) = l ∧ l.countP (fun n => (migrateNote n).2) = 0 := by
  intro l
  induction l with
  | nil => intro _; exact ⟨rfl, rfl⟩
  | cons a t ih =>
      intro h
      have ha := h a (List.mem_cons_self a t)
      have ht := ih (fun m hm => h m (List.mem_cons_of_mem a hm))
      constructor
      · simp only [List.map_cons, ha, ht.1]
      · simp [List.countP_cons, ha, ht.2]

/-! ## Claim theorems -/

/-- C1: the end-to-end scenario.  With note `m1` in repository `/a` at `t1` and
note `m2` in repository `/b` at the strictly later `t2`, the retrieval done by
`BrainCLI.resumeCommand` (an unscoped `Storage.getLatestWorkNote`) yields `m2`
even for an invocation made from `/a`: the command has no repository-scope
parameter, so "resume scoped to `/a` returns `m1`" fails on the code, although
the scope-aware `Storage.getLastWorkNote` (which the repository's CLI tests
expect the command to use) would return `m1`. -/
theorem resumeRetrieval_ignores_scope :
    resumeRetrieval exTime [exNoteA, exNoteB] = some exNoteB ∧
    exNoteA.message = "m1" ∧ exNoteB.message = "m2" ∧
    exNoteA.repositoryInfo.map RepositoryInfo.identifier = some "/a" ∧
    exNoteB.repositoryInfo.map RepositoryInfo.identifier = some "/b" ∧
    exTime "t1" < exTime "t2" ∧
    getLastWorkNote exTime [exNoteA, exNoteB] (some "/a") = some exNoteA := by
  refine ⟨by decide, rfl, rfl, rfl, rfl, by decide, by decide⟩

/-- C2 counterexample: the claim quantifies over arbitrary distinct identifier
values, but with `A = ""` the guard `if (repositoryId)` skips the filter
(the empty string is falsy), so the scope-filtered queries with filter `A`
return the other repository's note `exNoteB`. -/
theorem scoped_query_empty_filter_cex :
    emptyIdNote.repositoryInfo = some { path := "", identifier := "" } ∧
    exNoteB.repositoryInfo = some { path := "/b", identifier := "/b" } ∧
    ("" : String) ≠ "/b" ∧
    getLastWorkNote exTime [emptyIdNote, exNoteB] (some "") = some exNoteB ∧
    exNoteB ∈ getRecentWorkNotes exTime [emptyIdNote, exNoteB] 5 (some "") := by
  refine ⟨rfl, rfl, by decide, by decide, by decide⟩

/-- C2 (amended): for a NON-EMPTY filter `A` and any identifier `B ≠ A`,
neither `Storage.getLastWorkNote` nor `Storage.getRecentWorkNotes` scoped to
`A` ever returns a note whose descriptor identifier is `B`, for every store
and every timestamp interpretation. -/
theorem repository_isolation (getTime : String → Int) (store : List WorkNote)
    (A B : String) (hA : A ≠ "") (hB : B ≠ A) (limit : Nat) (n : WorkNote) :
    (getLastWorkNote getTime store (some A) = some n →
      n.repositoryInfo.map RepositoryInfo.identifier ≠ some B) ∧
    (n ∈ getRecentWorkNotes getTime store limit (some A) →
      n.repositoryInfo.map RepositoryInfo.identifier ≠ some B) := by
  have key : ∀ m : WorkNote, m ∈ scopeFilter store (some A) →
      m.repositoryInfo.map RepositoryInfo.identifier ≠ some B := by
    intro m hm hBid
    have hid := repoIdMatches_identifier (mem_scopeFilter_matches hA hm)
    rw [hid] at hBid
    exact hB (Option.some_injective _ hBid).symm
  constructor
  · intro h
    have hmem : n ∈ sortByKeyDesc (fun m => getTime m.timestamp)
        (scopeFilter store (some A)) := head?_mem h
    exact key n ((mem_sortByKeyDesc _ n _).mp hmem)
  · intro h
    unfold getRecentWorkNotes at h
    by_cases he : (scopeFilter store (some A)).isEmpty
    · rw [if_pos he] at h; cases h
    · rw [if_neg he] at h
      have hmem : n ∈ sortByKeyDesc (fun m => getTime m.timestamp)
          (scopeFilter store (some A)) := List.take_subset _ _ h
      exact key n ((mem_sortByKeyDesc _ n _).mp hmem)

/-- C2 witness: the amended theorem applied at a concrete store, filter
`"/b"` and other identifier `"/q"`. -/
theorem repository_isolation_witness :
    exNoteB.repositoryInfo.map RepositoryInfo.identifier ≠ some "/q" :=
  (repository_isolation exTime [exNoteB] "/b" "/q" (by decide) (by decide) 5 exNoteB).1
    (by decide)

/-- C3 counterexample: a loaded note lacking a descriptor whose embedded
snapshot repository path is PRESENT but empty is assigned the sentinel
descriptor, not a descriptor equal to that path: the migration tests
truthiness, not absence. -/
theorem performMigration_empty_path_cex :
    legacyEmptyPathNote.repositoryInfo = none ∧
    legacyEmptyPathNote.gitContext.repositoryPath = some "" ∧
    (performMigration [legacyEmptyPathNote]).1.map (fun n => n.repositoryInfo) =
      [some { path := "unknown", identifier := "unknown" }] ∧
    ({ path := "unknown", identifier := "unknown" } : RepositoryInfo) ≠
      { path := "", identifier := "" } := by
  refine ⟨rfl, rfl, by decide, by decide⟩

/-- C3 (amended): the migration step keeps descriptored notes unchanged,
assigns a note lacking a descriptor one whose path and identifier both equal
the embedded snapshot repository path when that path is present and
non-empty, and the sentinel `"unknown"` when it is absent OR empty; and the
step is idempotent: a second run changes no note and reports zero migrated
records (indeed `Storage.checkMigrationNeeded` is already false). -/
theorem performMigration_spec :
    (∀ n : WorkNote,
      (n.repositoryInfo ≠ none → (migrateNote n).1 = n) ∧
      (∀ q : String, n.repositoryInfo = none → n.gitContext.repositoryPath = some q →
        q ≠ "" →
        (migrateNote n).1 = { n with repositoryInfo := some { path := q, identifier := q } }) ∧
      (n.repositoryInfo = none →
        (n.gitContext.repositoryPath = none ∨ n.gitContext.repositoryPath = some "") →
        (migrateNote n).1 =
          { n with repositoryInfo := some { path := "unknown", identifier := "unknown" } })) ∧
    (∀ store : List WorkNote,
      performMigration (performMigration store).1 = ((performMigration store).1, 0) ∧
      checkMigrationNeeded (performMigration store).1 = false) := by
  constructor
  · intro n
    refine ⟨?_, ?_, ?_⟩
    · intro h
      unfold migrateNote
      cases hri : n.repositoryInfo with
      | none => exact absurd hri h
      | some ri => rfl
    · intro q h hq hqne
      unfold migrateNote
      rw [h, hq]
      simp [strTruthy, hqne]
    · intro h hp
      unfold migrateNote
      rw [h]
      rcases hp with hp | hp <;> simp [hp, strTruthy]
  · intro store
    have hall : ∀ m ∈ (performMigration store).1, migrateNote m = (m, false) := by
      intro m hm
      unfold performMigration at hm
      simp only [List.mem_map] at hm
      obtain ⟨n, _, rfl⟩ := hm
      exact migrateNote_idem n
    have hfix := migrate_list_fixed (performMigration store).1 hall
    constructor
    · show ((performMigration store).1.map (fun n => (migrateNote n).1),
          (performMigration store).1.countP (fun n => (migrateNote n).2)) =
          ((performMigration store).1, 0)
      rw [hfix.1, hfix.2]
    · unfold checkMigrationNeeded
      rw [List.any_eq_false]
      intro m hm
      have hs : m.repositoryInfo.isSome = true := by
        unfold performMigration at hm
        simp only [List.mem_map] at hm
        obtain ⟨n, _, rfl⟩ := hm
        exact migrateNote_fst_isSome n
      cases hx : m.repositoryInfo with
      | none => rw [hx] at hs; cases hs
      | some ri => simp [hx]

/-- C3 witness: the amended theorem applied to one legacy note with a
non-empty path and to a singleton store. -/
theorem performMigration_spec_witness :
    (migrateNote legacyANote).1 =
      { legacyANote with repositoryInfo := some { path := "/la", identifier := "/la" } } ∧
    performMigration (performMigration [legacyANote]).1 =
      ((performMigration [legacyANote]).1, 0) :=
  ⟨(performMigration_spec.1 legacyANote).2.1 "/la" rfl rfl (by decide),
   (performMigration_spec.2 [legacyANote]).1⟩

/-- C4: saving a note and fetching it by its id returns the note itself —
every field (id, message, timestamp, embedded snapshot, descriptor, optional
interpretation) is the saved one, whether the save overwrote an existing key
or appended a fresh one. -/
theorem saveWorkNote_getWorkNote_roundtrip (store : List WorkNote) (n : WorkNote) :
    getWorkNote (saveWorkNote store n) n.id = some n := by
  unfold getWorkNote saveWorkNote
  by_cases h : store.any (fun m => m.id == n.id) = true
  · rw [if_pos h]
    exact find?_map_overwrite n store h
  · rw [if_neg h]
    exact find?_append_self n store (by revert h; cases store.any (fun m => m.id == n.id) <;> simp)

/-- C9: deleting an existing id returns `true`, persists, and removes exactly
the notes carrying that id; deleting a missing id returns `false`, leaves the
collection untouched and performs no persistence write. -/
theorem deleteWorkNote_spec (store : List WorkNote) (id : String) :
    (store.any (fun m => m.id == id) = true →
      (deleteWorkNote store id).returned = true ∧
      (deleteWorkNote store id).persisted = true ∧
      ∀ n, n ∈ (deleteWorkNote store id).store ↔ n ∈ store ∧ n.id ≠ id) ∧
    (store.any (fun m => m.id == id) = false →
      deleteWorkNote store id = { store := store, persisted := false, returned := false }) := by
  constructor
  · intro h
    unfold deleteWorkNote
    rw [if_pos h]
    refine ⟨rfl, rfl, ?_⟩
    intro n
    simp [List.mem_filter, bne_iff_ne]
  · intro h
    unfold deleteWorkNote
    rw [if_neg (by simp [h])]

/-- C9 witness: the theorem applied to a singleton store at its own id and at
a missing id. -/
theorem deleteWorkNote_spec_witness :
    (deleteWorkNote [exNoteA] "n1").returned = true ∧
    deleteWorkNote [exNoteA] "zzz" = { store := [exNoteA], persisted := false, returned := false } :=
  ⟨((deleteWorkNote_spec [exNoteA] "n1").1 (by decide)).1,
   (deleteWorkNote_spec [exNoteA] "zzz").2 (by decide)⟩

theorem statusLineStep_eq (acc : WorkingDirectoryChanges) (c0 c1 c2 : Char)
    (rest : List Char) :
    statusLineStep acc (String.mk (c0 :: c1 :: c2 :: rest)) =
      (let filename := String.mk rest
       let acc1 :=
         if c0 ≠ ' ' ∧ c0 ≠ '?' then { acc with staged := acc.staged ++ [filename] }
         else acc
       if c1 ≠ ' ' then
         if c1 = '?' then { acc1 with untracked := acc1.untracked ++ [filename] }
         else { acc1 with unstaged := acc1.unstaged ++ [filename] }
       else acc1) := rfl

/-- C6: the porcelain-status parser on the four sample lines yields
staged = `[a.txt, b.txt]`, unstaged = `[c.txt]`, untracked = `[d.txt]`; empty
output yields three empty lists; and in general a line whose second status
character is the untracked marker `?` puts its path in `untracked` and never
in `unstaged`, whatever the first character is. -/
theorem getWorkingDirectoryChanges_spec :
    getWorkingDirectoryChanges "M  a.txt\nA  b.txt\n M c.txt\n?? d.txt" =
      { staged := ["a.txt", "b.txt"], unstaged := ["c.txt"], untracked := ["d.txt"] } ∧
    getWorkingDirectoryChanges "" = { staged := [], unstaged := [], untracked := [] } ∧
    (∀ (acc : WorkingDirectoryChanges) (c0 c2 : Char) (rest : List Char),
      (statusLineStep acc (String.mk (c0 :: '?' :: c2 :: rest))).untracked =
        acc.untracked ++ [String.mk rest] ∧
      (statusLineStep acc (String.mk (c0 :: '?' :: c2 :: rest))).unstaged =
        acc.unstaged) := by
  refine ⟨by decide, by decide, ?_⟩
  intro acc c0 c2 rest
  rw [statusLineStep_eq]
  refine ⟨?_, ?_⟩ <;> by_cases hc : c0 ≠ ' ' ∧ c0 ≠ '?' <;> simp [hc]

/-- C7: a non-positive commit count fails with the validation error before any
subprocess is issued (the issued-command list is empty); a positive count
whose log subprocess succeeds with blank output yields the empty commit list,
not an error. -/
theorem getRecentCommits_spec :
    (∀ (env : List String → CommandResult) (N : Int), N ≤ 0 →
      getRecentCommits env N = (Except.error "maxCommits must be positive", [])) ∧
    (∀ (env : List String → CommandResult) (N : Int), 0 < N →
      (env (gitLogCmd N)).success = true → jsTrim (env (gitLogCmd N)).stdout = "" →
      getRecentCommits env N = (Except.ok [], [gitLogCmd N])) := by
  constructor
  · intro env N h
    unfold getRecentCommits
    rw [if_pos h]
  · intro env N hN hs ht
    unfold getRecentCommits
    rw [if_neg (by omega)]
    simp [hs, ht]

/-- C7 witness: the theorem applied to the all-successful, silent subprocess
oracle at the counts `0` and `3`. -/
theorem getRecentCommits_spec_witness :
    getRecentCommits env0 0 = (Except.error "maxCommits must be positive", []) ∧
    getRecentCommits env0 3 = (Except.ok [], [gitLogCmd 3]) :=
  ⟨getRecentCommits_spec.1 env0 0 (by decide),
   getRecentCommits_spec.2 env0 3 (by decide) rfl rfl⟩

/-- C8: at the failing input, `GitAnalyzer.getRepositoryPath` as implemented
resolves two outputs denoting the same directory — one with a trailing path
separator, one without — to DIFFERENT identifiers (`"/x/"` vs `"/x"`): it
trims whitespace but never strips a trailing separator, and the query it
issues is `rev-parse --git-dir`, not the top-level-directory query the claim
describes (whose implementation the repository's newer analyzer tests expect
under `getRepositoryRoot`/`getRepositoryIdentifier`). -/
theorem getRepositoryPath_no_normalization :
    (getRepositoryPath envTrailingSlash "/cwd").1 = Except.ok "/x/" ∧
    (getRepositoryPath envNoTrailingSlash "/cwd").1 = Except.ok "/x" ∧
    ("/x/" : String) ≠ "/x" ∧
    (getRepositoryPath envTrailingSlash "/cwd").2 = [["rev-parse", "--git-dir"]] := by
  refine ⟨rfl, rfl, by decide, rfl⟩

theorem bool_eq_true_of_ne_false {b : Bool} (h : b ≠ false) : b = true := by
  cases b
  · exact absurd rfl h
  · rfl

theorem take_of_append_of_le {α : Type} :
    ∀ (n : Nat) (l₁ l₂ : List α), n ≤ l₁.length → (l₁ ++ l₂).take n = l₁.take n := by
  intro n
  induction n with
  | zero => intro l₁ l₂ _; rfl
  | succ m ih =>
      intro l₁ l₂ h
      cases l₁ with
      | nil => cases h
      | cons a t =>
          simp only [List.cons_append, List.take_succ_cons]
          rw [ih t l₂ (Nat.le_of_succ_le_succ h)]

theorem isPrefixList_append {pat : List Char} :
    ∀ {l : List Char}, isPrefixList pat l = true → ∀ m : List Char,
      isPrefixList pat (l ++ m) = true := by
  induction pat with
  | nil => intro l _ m; rfl
  | cons a as ih =>
      intro l h m
      cases l with
      | nil => cases h
      | cons b t =>
          simp only [isPrefixList, Bool.and_eq_true] at h
          simp only [List.cons_append, isPrefixList, Bool.and_eq_true]
          exact ⟨h.1, ih h.2 m⟩

theorem containsSeq_append {pat : List Char} :
    ∀ {l : List Char}, containsSeq pat l = true → ∀ m : List Char,
      containsSeq pat (l ++ m) = true := by
  intro l
  induction l with
  | nil =>
      intro h m
      simp only [containsSeq] at h
      cases m with
      | nil => exact h
      | cons y ys =>
          simp only [List.nil_append, containsSeq, Bool.or_eq_true]
          exact Or.inl (isPrefixList_append h (y :: ys))
  | cons x xs ih =>
      intro h m
      simp only [containsSeq, Bool.or_eq_true] at h
      simp only [List.cons_append, containsSeq, Bool.or_eq_true]
      rcases h with h | h
      · exact Or.inl (by simpa using isPrefixList_append h m)
      · exact Or.inr (ih h m)

theorem isCustomError_wrapped_missing : isCustomError missingFieldsMsg = false := by decide

theorem isCustomError_arrays : isCustomError arraysMsg = false := by decide

theorem isCustomError_upstream (m : String) :
    isCustomError ("OpenAI API error (500): " ++ m) = true := by
  unfold isCustomError
  have h : containsSubstring ("OpenAI API error (500): " ++ m) "OpenAI API" = true := by
    show containsSeq ("OpenAI API".toList)
        (("OpenAI API error (500): ").toList ++ m.toList) = true
    exact containsSeq_append (by decide) m.toList
  rw [h]
  rfl

theorem wrapCaught_missing :
    wrapCaught missingFieldsMsg = "Failed to connect to OpenAI API: " ++ missingFieldsMsg := by
  unfold wrapCaught
  rw [isCustomError_wrapped_missing]
  rfl

theorem wrapCaught_rate_limit :
    wrapCaught "OpenAI API rate limit exceeded. Please try again later." =
      "OpenAI API rate limit exceeded. Please try again later." := by decide

theorem wrapCaught_upstream (m : String) :
    wrapCaught ("OpenAI API error (500): " ++ m) = "OpenAI API error (500): " ++ m := by
  unfold wrapCaught
  rw [isCustomError_upstream m]
  rfl

theorem analyzeContext_wrap {apiKey : String} (h1 : apiKey ≠ "")
    (h2 : jsTrim apiKey ≠ "") {outcome : FetchOutcome} {msg : String}
    (h : tryBody outcome = Except.error msg) :
    analyzeContext apiKey outcome = Except.error (wrapCaught msg) := by
  unfold analyzeContext
  rw [if_neg (not_or.mpr ⟨h1, h2⟩), h]

theorem analyzeContext_ok {apiKey : String} (h1 : apiKey ≠ "")
    (h2 : jsTrim apiKey ≠ "") {outcome : FetchOutcome} {parsed : ParsedContent}
    (h : tryBody outcome = Except.ok parsed) :
    analyzeContext apiKey outcome = Except.ok parsed := by
  unfold analyzeContext
  rw [if_neg (not_or.mpr ⟨h1, h2⟩), h]

theorem analyzeContext_ok_inv {apiKey : String} {outcome : FetchOutcome}
    {out : ParsedContent} (h : analyzeContext apiKey outcome = Except.ok out) :
    tryBody outcome = Except.ok out := by
  unfold analyzeContext at h
  by_cases hb : apiKey = "" ∨ jsTrim apiKey = ""
  · rw [if_pos hb] at h
    cases h
  · rw [if_neg hb] at h
    cases htb : tryBody outcome with
    | ok parsed =>
        rw [htb] at h
        exact h
    | error msg =>
        rw [htb] at h
        have h2 : (Except.error (wrapCaught msg) : Except String ParsedContent) =
            Except.ok out := h
        cases h2

theorem validateParsed_error_missing {parsed : ParsedContent}
    (h : fieldTruthy parsed.summary = false ∨ fieldTruthy parsed.technicalContext = false ∨
      fieldTruthy parsed.suggestedNextSteps = false ∨
      fieldTruthy parsed.relatedFiles = false ∨
      isNumberField parsed.confidenceScore = false) :
    validateParsed parsed = Except.error missingFieldsMsg := by
  unfold validateParsed
  rw [if_pos h]

theorem validateParsed_ok_inv {parsed out : ParsedContent}
    (h : validateParsed parsed = Except.ok out) :
    out.summary = parsed.summary ∧ out.technicalContext = parsed.technicalContext ∧
    fieldTruthy parsed.summary = true ∧ fieldTruthy parsed.technicalContext = true ∧
    isArrayField parsed.suggestedNextSteps = true ∧
    isArrayField parsed.relatedFiles = true := by
  unfold validateParsed at h
  by_cases h1 : fieldTruthy parsed.summary = false ∨
      fieldTruthy parsed.technicalContext = false ∨
      fieldTruthy parsed.suggestedNextSteps = false ∨
      fieldTruthy parsed.relatedFiles = false ∨
      isNumberField parsed.confidenceScore = false
  · rw [if_pos h1] at h
    cases h
  · rw [if_neg h1] at h
    push_neg at h1
    obtain ⟨hs, ht, _, _, _⟩ := h1
    by_cases h2 : isArrayField parsed.suggestedNextSteps = false ∨
        isArrayField parsed.relatedFiles = false
    · rw [if_pos h2] at h
      cases h
    · rw [if_neg h2] at h
      push_neg at h2
      obtain ⟨ha1, ha2⟩ := h2
      have hbase : out.summary = parsed.summary ∧
          out.technicalContext = parsed.technicalContext := by
        split at h
        · split at h
          · cases h
            exact ⟨rfl, rfl⟩
          · cases h
            exact ⟨rfl, rfl⟩
        · cases h
          exact ⟨rfl, rfl⟩
      exact ⟨hbase.1, hbase.2, bool_eq_true_of_ne_false hs,
        bool_eq_true_of_ne_false ht, bool_eq_true_of_ne_false ha1,
        bool_eq_true_of_ne_false ha2⟩

theorem tryBody_ok_inv {outcome : FetchOutcome} {out : ParsedContent}
    (h : tryBody outcome = Except.ok out) :
    ∃ d : ParsedContent, validateParsed d = Except.ok out := by
  unfold tryBody at h
  split at h
  · cases h
  · split at h
    · split at h
      · cases h
      · cases h
    · split at h
      · cases h
      · split at h
        · cases h
        · exact ⟨_, h⟩

/-- C5: response handling of `AIClient.analyzeContext` — (1) a parsed document
with any of the five required fields absent fails with the
missing-required-field error (wrapped by the outer catch) and produces no
interpretation; (2) a well-formed document whose confidence score lies outside
`[0, 1]` is accepted, its score clamped into `[0, 1]` via
`max 0 (min 1 q)` (so `1.5` becomes `1`); (3) a non-array value in
`suggestedNextSteps` or `relatedFiles` is rejected with an error; (4) an HTTP
429 raises the rate-limit error, an HTTP 500 raises the upstream error
carrying the status, and the two messages differ for every upstream message. -/
theorem analyzeContext_spec :
    (∀ (apiKey : String) (status : Nat) (errorMessage : Option String)
        (parsed : ParsedContent), apiKey ≠ "" → jsTrim apiKey ≠ "" →
      (parsed.summary = none ∨ parsed.technicalContext = none ∨
        parsed.suggestedNextSteps = none ∨ parsed.relatedFiles = none ∨
        parsed.confidenceScore = none) →
      analyzeContext apiKey (.httpResponse true status errorMessage [some parsed]) =
        Except.error ("Failed to connect to OpenAI API: " ++ missingFieldsMsg)) ∧
    (∀ (apiKey s t : String) (xs ys : List JVal) (q : ℚ) (status : Nat)
        (errorMessage : Option String), apiKey ≠ "" → jsTrim apiKey ≠ "" →
      s ≠ "" → t ≠ "" → q < 0 ∨ 1 < q →
      analyzeContext apiKey
          (.httpResponse true status errorMessage [some (mkParsed s t xs ys q)]) =
        Except.ok (mkParsed s t xs ys (max 0 (min 1 q))) ∧
      (0 : ℚ) ≤ max 0 (min 1 q) ∧ max 0 (min 1 q) ≤ 1) ∧
    (∀ (apiKey : String) (parsed : ParsedContent) (v : JVal) (status : Nat)
        (errorMessage : Option String), apiKey ≠ "" → jsTrim apiKey ≠ "" →
      (parsed.suggestedNextSteps = some v ∨ parsed.relatedFiles = some v) →
      isArrayField (some v) = false →
      ∃ e, analyzeContext apiKey (.httpResponse true status errorMessage [some parsed]) =
        Except.error e) ∧
    (∀ (apiKey m : String) (errorMessage : Option String)
        (choices : List (Option ParsedContent)), apiKey ≠ "" → jsTrim apiKey ≠ "" →
      analyzeContext apiKey (.httpResponse false 429 errorMessage choices) =
        Except.error "OpenAI API rate limit exceeded. Please try again later." ∧
      analyzeContext apiKey (.httpResponse false 500 (some m) choices) =
        Except.error ("OpenAI API error (500): " ++ m) ∧
      "OpenAI API rate limit exceeded. Please try again later." ≠
        "OpenAI API error (500): " ++ m) := by
  refine ⟨?_, ?_, ?_, ?_⟩
  · intro apiKey status errorMessage parsed h1 h2 hmiss
    have hval : validateParsed parsed = Except.error missingFieldsMsg := by
      apply validateParsed_error_missing
      rcases hmiss with h | h | h | h | h
      · exact Or.inl (by rw [h]; rfl)
      · exact Or.inr (Or.inl (by rw [h]; rfl))
      · exact Or.inr (Or.inr (Or.inl (by rw [h]; rfl)))
      · exact Or.inr (Or.inr (Or.inr (Or.inl (by rw [h]; rfl))))
      · exact Or.inr (Or.inr (Or.inr (Or.inr (by rw [h]; rfl))))
    have htb : tryBody (.httpResponse true status errorMessage [some parsed]) =
        Except.error missingFieldsMsg := hval
    rw [analyzeContext_wrap h1 h2 htb, wrapCaught_missing]
  · intro apiKey s t xs ys q status errorMessage h1 h2 hs ht hq
    refine ⟨?_, le_max_left 0 _, max_le (by norm_num) (min_le_left 1 q)⟩
    have hval : validateParsed (mkParsed s t xs ys q) =
        Except.ok (mkParsed s t xs ys (max 0 (min 1 q))) := by
      unfold validateParsed
      rw [if_neg (by simp [mkParsed, fieldTruthy, JVal.truthy, isNumberField, hs, ht])]
      rw [if_neg (by simp [mkParsed, isArrayField])]
      show (if q < 0 ∨ 1 < q then _ else _) = _
      rw [if_pos hq]
      rfl
    have htb : tryBody (.httpResponse true status errorMessage [some (mkParsed s t xs ys q)]) =
        Except.ok (mkParsed s t xs ys (max 0 (min 1 q))) := hval
    exact analyzeContext_ok h1 h2 htb
  · intro apiKey parsed v status errorMessage h1 h2 hv hnav
    cases hval : validateParsed parsed with
    | error e =>
        have htb : tryBody (.httpResponse true status errorMessage [some parsed]) =
            Except.error e := hval
        exact ⟨wrapCaught e, analyzeContext_wrap h1 h2 htb⟩
    | ok out =>
        exfalso
        have hinv := validateParsed_ok_inv hval
        rcases hv with hv | hv
        · have harr := hinv.2.2.2.2.1
          rw [hv, hnav] at harr
          cases harr
        · have harr := hinv.2.2.2.2.2
          rw [hv, hnav] at harr
          cases harr
  · intro apiKey m errorMessage choices h1 h2
    refine ⟨?_, ?_, ?_⟩
    · have htb : tryBody (.httpResponse false 429 errorMessage choices) =
          Except.error "OpenAI API rate limit exceeded. Please try again later." := rfl
      rw [analyzeContext_wrap h1 h2 htb, wrapCaught_rate_limit]
    · have hlit : ("OpenAI API error (" ++ toString (500 : Nat) ++ "): " : String) =
          "OpenAI API error (500): " := by decide
      have htb : tryBody (.httpResponse false 500 (some m) choices) =
          Except.error ("OpenAI API error (500): " ++ m) := by
        show Except.error ("OpenAI API error (" ++ toString (500 : Nat) ++ "): " ++ m) =
          Except.error ("OpenAI API error (500): " ++ m)
        rw [hlit]
      rw [analyzeContext_wrap h1 h2 htb, wrapCaught_upstream m]
    · intro heq
      have h3 := congrArg (fun s : String => s.toList.take 12) heq
      simp only at h3
      rw [show ("OpenAI API error (500): " ++ m).toList =
          ("OpenAI API error (500): ").toList ++ m.toList from rfl] at h3
      rw [take_of_append_of_le 12 _ _ (by decide)] at h3
      exact absurd h3 (by decide)

/-- C5 witness: the theorem applied at a concrete key, documents and statuses
(a document missing its summary; a document with confidence 2 clamped to 1; a
string where an array was expected; the statuses 429 and 500). -/
theorem analyzeContext_spec_witness :
    analyzeContext "k" (.httpResponse true 200 none
        [some { summary := none, technicalContext := some (JVal.jstr "t"),
                suggestedNextSteps := some (JVal.jarr []),
                relatedFiles := some (JVal.jarr []),
                confidenceScore := some (JVal.jnum 1) }]) =
      Except.error ("Failed to connect to OpenAI API: " ++ missingFieldsMsg) ∧
    analyzeContext "k" (.httpResponse true 200 none [some (mkParsed "s" "t" [] [] 2)]) =
      Except.ok (mkParsed "s" "t" [] [] (max 0 (min 1 2))) ∧
    (∃ e, analyzeContext "k" (.httpResponse true 200 none
        [some { mkParsed "s" "t" [] [] 1 with
                suggestedNextSteps := some (JVal.jstr "not an array") }]) =
      Except.error e) ∧
    analyzeContext "k" (.httpResponse false 429 none []) =
      Except.error "OpenAI API rate limit exceeded. Please try again later." ∧
    analyzeContext "k" (.httpResponse false 500 (some "boom") []) =
      Except.error ("OpenAI API error (500): " ++ "boom") :=
  ⟨analyzeContext_spec.1 "k" 200 none _ (by decide) (by decide) (Or.inl rfl),
   (analyzeContext_spec.2.1 "k" "s" "t" [] [] 2 200 none (by decide) (by decide)
      (by decide) (by decide) (Or.inr (by norm_num))).1,
   analyzeContext_spec.2.2.1 "k" _ (JVal.jstr "not an array") 200 none
      (by decide) (by decide) (Or.inl rfl) rfl,
   (analyzeContext_spec.2.2.2 "k" "boom" none [] (by decide) (by decide)).1,
   (analyzeContext_spec.2.2.2 "k" "boom" none [] (by decide) (by decide)).2.1⟩

/-- C10: a parsed document whose `summary` or `technicalContext` is present
but equal to the empty string still fails with the missing-required-field
error (JavaScript truthiness makes `""` indistinguishable from an absent
field); consequently every document `analyzeContext` returns has truthy — in
particular non-empty-string — `summary` and `technicalContext`. -/
theorem analyzeContext_nonempty_summary :
    (∀ (apiKey : String) (status : Nat) (errorMessage : Option String)
        (parsed : ParsedContent), apiKey ≠ "" → jsTrim apiKey ≠ "" →
      (parsed.summary = some (JVal.jstr "") ∨
        parsed.technicalContext = some (JVal.jstr "")) →
      analyzeContext apiKey (.httpResponse true status errorMessage [some parsed]) =
        Except.error ("Failed to connect to OpenAI API: " ++ missingFieldsMsg)) ∧
    (∀ (apiKey : String) (outcome : FetchOutcome) (out : ParsedContent),
      analyzeContext apiKey outcome = Except.ok out →
      fieldTruthy out.summary = true ∧ fieldTruthy out.technicalContext = true ∧
      out.summary ≠ some (JVal.jstr "") ∧
      out.technicalContext ≠ some (JVal.jstr "")) := by
  constructor
  · intro apiKey status errorMessage parsed h1 h2 hempty
    have hval : validateParsed parsed = Except.error missingFieldsMsg := by
      apply validateParsed_error_missing
      rcases hempty with h | h
      · exact Or.inl (by rw [h]; rfl)
      · exact Or.inr (Or.inl (by rw [h]; rfl))
    have htb : tryBody (.httpResponse true status errorMessage [some parsed]) =
        Except.error missingFieldsMsg := hval
    rw [analyzeContext_wrap h1 h2 htb, wrapCaught_missing]
  · intro apiKey outcome out h
    obtain ⟨d, hd⟩ := tryBody_ok_inv (analyzeContext_ok_inv h)
    have hinv := validateParsed_ok_inv hd
    have hsum : fieldTruthy out.summary = true := by
      rw [hinv.1]
      exact hinv.2.2.1
    have htc : fieldTruthy out.technicalContext = true := by
      rw [hinv.2.1]
      exact hinv.2.2.2.1
    refine ⟨hsum, htc, ?_, ?_⟩
    · intro hx
      rw [hx] at hsum
      exact absurd hsum (by decide)
    · intro hx
      rw [hx] at htc
      exact absurd htc (by decide)

/-- C10 witness: the theorem applied to a document with an empty-string
summary and to a successful concrete analysis. -/
theorem analyzeContext_nonempty_summary_witness :
    analyzeContext "k" (.httpResponse true 200 none
        [some { summary := some (JVal.jstr ""), technicalContext := some (JVal.jstr "t"),
                suggestedNextSteps := some (JVal.jarr []),
                relatedFiles := some (JVal.jarr []),
                confidenceScore := some (JVal.jnum 1) }]) =
      Except.error ("Failed to connect to OpenAI API: " ++ missingFieldsMsg) ∧
    fieldTruthy (mkParsed "s" "t" [] [] 1).summary = true :=
  ⟨analyzeContext_nonempty_summary.1 "k" 200 none _ (by decide) (by decide) (Or.inl rfl),
   (analyzeContext_nonempty_summary.2 "k"
      (.httpResponse true 200 none [some (mkParsed "s" "t" [] [] 1)])
      (mkParsed "s" "t" [] [] 1) rfl).1⟩

end Brain
